import Mathlib

/-!
Verification development for the tiered conversational memory subsystem
(short-term Redis-backed session store, long-term vector store, and the
per-turn memory orchestrator of the demo program).

The definitions below are a shallow embedding of the Go source:

* `Message`, `addMessage`, `getHistory`, `saveSummary`, `clearHistory`,
  `updateLastAccessTime`, `getLastAccessTime` embed the methods of
  `ShortTermMemory` (Redis keys `session:<id>:messages`,
  `session:<id>:summary`, `session:<id>:last_access`).  The per-session
  Redis state is modelled by `SessionStore`; every stored value carries
  the absolute expiry time the code gave it (`none` = no TTL), and reads
  take the current time `now` so that Redis key expiry is observable.
* Raw list entries are `Option Message`: `some m` is an entry whose JSON
  payload unmarshals to `m`, `none` is an entry whose payload does not
  unmarshal (the code skips such entries with `continue`).
* `ltmStore` / `ltmRetrieve` embed `LongTermMemory.Store` / `Retrieve`;
  the Elasticsearch indexer, the retriever, the chat model and the
  summarization chain are external ports, passed in as functions that may
  fail (`Except`).
* `runTurn` embeds the body of the per-turn loop of `main`
  (read short-term history, conditional long-term retrieval, generate,
  persist both turn messages, the summarization check, and the
  conditional long-term write), and `maybeSummarize` embeds its
  summarization step verbatim.

Go slice expressions that can panic are embedded through `goSliceFrom`,
which returns `none` exactly when the Go slice bound check fails, so
panic-freedom is a provable statement rather than an assumption.
-/

/-- A chat message as stored in the session log (Go struct `Message` with
fields `role`, `content`, `time`). -/
structure Message where
  role : String
  content : String
  time : Nat
deriving DecidableEq

/-- A value stored under a Redis key together with the absolute expiry
instant attached by the write (`none` = the write set no TTL). -/
structure Cell (α : Type) where
  val : α
  expiresAt : Option Nat
deriving DecidableEq

/-- Whether a key with the given expiry metadata is still present at time
`now` (Redis deletes a key once its TTL has elapsed). -/
def keyLive (exp : Option Nat) (now : Nat) : Bool :=
  match exp with
  | none => true
  | some e => decide (now < e)

/-- Read a single-value key at time `now`: `none` models `redis.Nil`
(no key, or the key has expired). -/
def liveCell {α : Type} (c : Option (Cell α)) (now : Nat) : Option α :=
  match c with
  | none => none
  | some cell =>
    match cell.expiresAt with
    | none => some cell.val
    | some e => if now < e then some cell.val else none

/-- The per-session Redis state touched by `ShortTermMemory`:
the message list `session:<id>:messages` (raw entries, `none` = an entry
whose JSON does not unmarshal), its key TTL (never set by this code, but
modelled so that its absence is provable), the cached summary
`session:<id>:summary`, and the advisory `session:<id>:last_access`
timestamp. -/
structure SessionStore where
  messages : List (Option Message)
  messagesExpiry : Option Nat
  summary : Option (Cell String)
  lastAccess : Option (Cell Nat)
deriving DecidableEq

/-- A session that was never written: no keys exist. -/
def initSession : SessionStore :=
  { messages := [], messagesExpiry := none, summary := none, lastAccess := none }

/-- The raw entries `LRange key 0 -1` returns at time `now` (an expired or
absent list key yields the empty range, not an error). -/
def rawEntries (now : Nat) (st : SessionStore) : List (Option Message) :=
  if keyLive st.messagesExpiry now then st.messages else []

/-- `ShortTermMemory.AddMessage`: `RPUSH` of the JSON-encoded message onto
the session list.  The code deliberately attaches no TTL (its comment:
short-term memory follows the session life cycle, cleanup is explicit).
If the list key had expired, `RPUSH` starts a fresh list with no TTL. -/
def addMessage (now : Nat) (role content : String) (st : SessionStore) : SessionStore :=
  let msg : Message := { role := role, content := content, time := now }
  if keyLive st.messagesExpiry now then
    { st with messages := st.messages ++ [some msg] }
  else
    { st with messages := [some msg], messagesExpiry := none }

/-- Go slice `l[start:]`: valid when `0 ≤ start ≤ len(l)`, otherwise the
program panics (modelled by `none`). -/
def goSliceFrom (l : List Message) (start : Int) : Option (List Message) :=
  if 0 ≤ start ∧ start ≤ (l.length : Int) then some (l.drop start.toNat) else none

/-- `ShortTermMemory.GetHistory`: reads the whole message list, skips
entries that fail to unmarshal, computes `totalRounds = len/2`; within the
window it returns everything with an empty summary, beyond the window it
returns the slice `allMessages[len - maxHistory*2:]` together with the
cached summary (empty when the summary key is absent, `redis.Nil`).
The result is `none` exactly when the Go slice would panic. -/
def getHistory (now maxHistory : Nat) (st : SessionStore) : Option (List Message × String) :=
  let allMessages := (rawEntries now st).filterMap id
  let totalRounds := allMessages.length / 2
  if totalRounds ≤ maxHistory then
    some (allMessages, "")
  else
    match goSliceFrom allMessages ((allMessages.length : Int) - ((maxHistory * 2 : Nat) : Int)) with
    | none => none
    | some recentMessages =>
      match liveCell st.summary now with
      | none => some (recentMessages, "")
      | some s => some (recentMessages, s)

/-- `ShortTermMemory.SaveSummary`: `SET` of the summary value with
expiration `0`, i.e. no TTL (the code's comment: it follows the session
life cycle). -/
def saveSummary (text : String) (st : SessionStore) : SessionStore :=
  { st with summary := some { val := text, expiresAt := none } }

/-- `ShortTermMemory.ClearHistory`: one `DEL` of the messages key, the
summary key and the last-access key (a single Redis command, hence one
atomic state transition in this model). -/
def clearHistory (_st : SessionStore) : SessionStore :=
  { messages := [], messagesExpiry := none, summary := none, lastAccess := none }

/-- `ShortTermMemory.UpdateLastAccessTime`: `SET` of the current time with
a 30-day TTL (`30*24*time.Hour`, i.e. expiry at `now + 2592000` seconds). -/
def updateLastAccessTime (now : Nat) (st : SessionStore) : SessionStore :=
  { st with lastAccess := some { val := now, expiresAt := some (now + 2592000) } }

/-- `ShortTermMemory.GetLastAccessTime`: `GET` of the last-access key,
returning `0` on `redis.Nil` (absent or expired key). -/
def getLastAccessTime (now : Nat) (st : SessionStore) : Nat :=
  match liveCell st.lastAccess now with
  | none => 0
  | some t => t

/-- Metadata the orchestrator attaches to a long-term record: the Go map
`{"session_id": ..., "type": "user_fact", "timestamp": ...}` (the `kind`
field embeds the `"type"` key). -/
structure MemoryMetadata where
  sessionId : String
  kind : String
  timestamp : Nat
deriving DecidableEq

/-- A document handed to the Elasticsearch indexer by
`LongTermMemory.Store` (`schema.Document` with `Content` and `MetaData`). -/
structure LTDoc where
  content : String
  metadata : MemoryMetadata
deriving DecidableEq

/-- A document returned by the Elasticsearch retriever; the orchestrator
only reads its `Content`. -/
structure RDoc where
  content : String
deriving DecidableEq

/-- `LongTermMemory.Store`: wraps one document and calls the indexer port;
returns the Go pair `(id, err)`: on indexer failure `("", wrapped error)`,
on an empty id list `("", "存储失败：未返回 ID")`, otherwise `(ids[0], nil)`.
Embedding happens inside the indexer port, so an embedding failure
surfaces as an indexer error. -/
def ltmStore (index : List LTDoc → Except String (List String))
    (content : String) (metadata : MemoryMetadata) : String × Option String :=
  match index [{ content := content, metadata := metadata }] with
  | .error e => ("", some ("存储长期记忆失败: " ++ e))
  | .ok [] => ("", some "存储失败：未返回 ID")
  | .ok (id0 :: _) => (id0, none)

/-- `LongTermMemory.Retrieve`: calls the retriever port and wraps its
error. -/
def ltmRetrieve (ret : String → Except String (List RDoc)) (query : String) :
    Except String (List RDoc) :=
  match ret query with
  | .error e => .error ("检索长期记忆失败: " ++ e)
  | .ok docs => .ok docs

/-- Whether `pat` occurs at the start of `s` (character lists). -/
def charsHavePfx : List Char → List Char → Bool
  | [], _ => true
  | _ :: _, [] => false
  | p :: ps, c :: cs => p == c && charsHavePfx ps cs

/-- Whether `pat` occurs somewhere inside `s` (character lists). -/
def charsContain (pat : List Char) : List Char → Bool
  | [] => charsHavePfx pat []
  | c :: cs => charsHavePfx pat (c :: cs) || charsContain pat cs

/-- Go `strings.Contains(s, sub)`. -/
def strContains (s sub : String) : Bool :=
  charsContain sub.data s.data

/-- Go `strings.TrimPrefix(s, pre)`: removes `pre` from the start of `s`
when present, otherwise returns `s` unchanged. -/
def strTrimPfx (s pre : String) : String :=
  if charsHavePfx pre.data s.data then String.mk (s.data.drop pre.data.length) else s

/-- The external ports the per-turn loop of `main` calls: the
Elasticsearch retriever, the conversation chain (short-term text,
long-term text, user input → reply), the summarization chain, and the
Elasticsearch indexer. -/
structure Ports where
  retrieve : String → Except String (List RDoc)
  chat : String → String → String → Except String String
  summarize : List Message → Except String String
  index : List LTDoc → Except String (List String)

/-- Rendering of the recent messages into the prompt (`role: content`
lines, as in the loop of `main`). -/
def renderMessages : List Message → String
  | [] => ""
  | m :: ms => m.role ++ ": " ++ m.content ++ "\n" ++ renderMessages ms

/-- The `short_term_history` template value built by `main`: the summary
block when the summary is non-empty, then the recent-dialogue block. -/
def shortTermText (recent : List Message) (summary : String) : String :=
  (if summary != "" then "【对话总结】\n" ++ summary ++ "\n\n" else "")
    ++ "【最近对话】\n" ++ renderMessages recent

/-- Numbered rendering of retrieved documents (`fmt.Sprintf` with `j+1`). -/
def renderDocs : Nat → List RDoc → String
  | _, [] => ""
  | j, d :: ds => toString (j + 1) ++ ". " ++ d.content ++ "\n" ++ renderDocs (j + 1) ds

/-- The `long_term_memory` template value: `main` retrieves only when the
query contains "记住" or "我的", and uses the documents only when the call
succeeded with a non-empty list; any retrieval error leaves the text
empty. -/
def longTermText (ret : String → Except String (List RDoc)) (query : String) : String :=
  if strContains query "记住" || strContains query "我的" then
    match ltmRetrieve ret query with
    | .ok docs =>
      if 0 < docs.length then "检索到的相关信息：\n" ++ renderDocs 0 docs else ""
    | .error _ => ""
  else ""

/-- Step 5 of the loop of `main` (lines 822-834): re-read the history,
take `totalRounds = len(allMessages)/2` of the value GetHistory returned,
and when it exceeds `maxHistory` summarize `allMessages[:len - maxHistory*2]`
and save the result (a failed GetHistory is ignored, leaving a nil list;
a failed summarization leaves the state unchanged). -/
def maybeSummarize (now maxHistory : Nat)
    (summarize : List Message → Except String String) (st : SessionStore) : SessionStore :=
  let allMessages :=
    match getHistory now maxHistory st with
    | some pr => pr.1
    | none => []
  let totalRounds := allMessages.length / 2
  if maxHistory < totalRounds then
    match summarize (allMessages.take (allMessages.length - maxHistory * 2)) with
    | .ok s => saveSummary s st
    | .error _ => st
  else st

/-- The outcome of one turn: the assistant reply (absent when the turn was
skipped by a `continue`), and the long-term `Store` call made in step 6,
if any (content, metadata, and the Go `(id, err)` result). -/
structure TurnResult where
  response : Option String
  stored : Option (String × MemoryMetadata × String × Option String)
deriving DecidableEq

/-- The body of the per-turn loop of `main` (lines 767-850): read the
short-term history, build the two context texts, invoke the conversation
chain (`continue` on error), persist the user and assistant messages,
run the summarization step, and when the query contains "请记住" store
`strings.TrimPrefix(query, "请记住：")` with session id, kind `"user_fact"`
and the current timestamp in the long-term store. -/
def runTurn (maxHistory : Nat) (p : Ports) (sessionID query : String) (now : Nat)
    (st : SessionStore) : SessionStore × TurnResult :=
  match getHistory now maxHistory st with
  | none => (st, { response := none, stored := none })
  | some pr =>
    let shortHist := shortTermText pr.1 pr.2
    let longInfo := longTermText p.retrieve query
    match p.chat shortHist longInfo query with
    | .error _ => (st, { response := none, stored := none })
    | .ok response =>
      let st1 := addMessage now "user" query st
      let st2 := addMessage now "assistant" response st1
      let st3 := maybeSummarize now maxHistory p.summarize st2
      let stored :=
        if strContains query "请记住" then
          let content := strTrimPfx query "请记住："
          let metadata : MemoryMetadata :=
            { sessionId := sessionID, kind := "user_fact", timestamp := now }
          let r := ltmStore p.index content metadata
          some (content, metadata, r.1, r.2)
        else none
      (st3, { response := some response, stored := stored })

/-- Folding `runTurn` over a list of (query, time) pairs, as the demo loop
of `main` does over its test queries. -/
def runTurns (maxHistory : Nat) (p : Ports) (sessionID : String) :
    List (String × Nat) → SessionStore → SessionStore
  | [], st => st
  | (q, t) :: rest, st => runTurns maxHistory p sessionID rest (runTurn maxHistory p sessionID q t st).1

/-- Wrapping a list into well-formed raw entries and unmarshalling it back
is the identity. -/
theorem filterMap_id_map_some {α : Type} (l : List α) :
    (l.map some).filterMap id = l := by
  induction l with
  | nil => rfl
  | cons a t ih => simp [List.filterMap_cons, ih]

/-- Once the window is exceeded, the log holds at least `2*maxHistory + 2`
unmarshalled messages, so the Go slice bound is in range. -/
theorem length_lower_bound_of_window_lt (L maxHistory : Nat)
    (h : maxHistory < L / 2) : 2 * maxHistory + 2 ≤ L := by
  omega

/-- `GetHistory` never panics: the slice `allMessages[len - maxHistory*2:]`
is always in bounds. -/
theorem getHistory_isSome (now maxHistory : Nat) (st : SessionStore) :
    (getHistory now maxHistory st).isSome = true := by
  unfold getHistory goSliceFrom
  set L := ((rawEntries now st).filterMap id).length with hL
  by_cases h : L / 2 ≤ maxHistory
  · simp [h]
  · have hb : 2 * maxHistory + 2 ≤ L := by omega
    rw [if_neg h, if_pos (by constructor <;> [omega; omega])]
    cases liveCell st.summary now <;> simp

/-- The message list `GetHistory` returns never spans more than
`maxHistory` complete rounds, measured the way the caller in `main`
measures them (`len/2`). -/
theorem getHistory_rounds_le (now maxHistory : Nat) (st : SessionStore)
    (pr : List Message × String) (h : getHistory now maxHistory st = some pr) :
    pr.1.length / 2 ≤ maxHistory := by
  unfold getHistory goSliceFrom at h
  set L := ((rawEntries now st).filterMap id).length with hL
  by_cases hc : L / 2 ≤ maxHistory
  · rw [if_pos hc] at h
    have : pr.1 = (rawEntries now st).filterMap id := by
      cases h
      rfl
    rw [this, ← hL]
    exact hc
  · have hb : 2 * maxHistory + 2 ≤ L := by omega
    rw [if_neg hc, if_pos (by constructor <;> [omega; omega])] at h
    have hlen : pr.1.length = 2 * maxHistory := by
      cases hliv : liveCell st.summary now <;> rw [hliv] at h <;> cases h <;>
        simp [List.length_drop, ← hL] <;> omega
    omega

/-- Dropping fewer elements than the length preserves the last element. -/
theorem getLast?_drop_of_lt {α : Type} (l : List α) (k : Nat) (hk : k < l.length) :
    (l.drop k).getLast? = l.getLast? := by
  induction l generalizing k with
  | nil => simp at hk
  | cons a t ih =>
    cases k with
    | zero => rfl
    | succ k =>
      have hk' : k < t.length := by simpa using hk
      rw [List.drop_succ_cons, ih k hk']
      cases t with
      | nil => simp at hk'
      | cons b u => simp [List.getLast?_cons_cons]

/-- `AddMessage` only touches the message list: the cached summary is
untouched. -/
theorem addMessage_summary (now : Nat) (role content : String) (st : SessionStore) :
    (addMessage now role content st).summary = st.summary := by
  unfold addMessage
  split <;> rfl

/-- `AddMessage` leaves the advisory last-access key untouched. -/
theorem addMessage_lastAccess (now : Nat) (role content : String) (st : SessionStore) :
    (addMessage now role content st).lastAccess = st.lastAccess := by
  unfold addMessage
  split <;> rfl

/-- The summarization step of the loop of `main` is dead code: it measures
`totalRounds` on the truncated list `GetHistory` returned, which never
exceeds `maxHistory`, so the trigger condition is never true and the state
is returned unchanged. -/
theorem maybeSummarize_eq_self (now maxHistory : Nat)
    (summarize : List Message → Except String String) (st : SessionStore) :
    maybeSummarize now maxHistory summarize st = st := by
  unfold maybeSummarize
  cases hg : getHistory now maxHistory st with
  | none => simp
  | some pr =>
    have hle := getHistory_rounds_le now maxHistory st pr hg
    simp [hle, Nat.not_lt_of_le hle]

/-- Within the window, `GetHistory` returns the whole unmarshalled log and
an empty summary. -/
theorem getHistory_within_window (now maxHistory : Nat) (st : SessionStore)
    (h : ((rawEntries now st).filterMap id).length / 2 ≤ maxHistory) :
    getHistory now maxHistory st = some ((rawEntries now st).filterMap id, "") := by
  simp only [getHistory]
  rw [if_pos h]

/-- Beyond the window, `GetHistory` returns the last `maxHistory * 2`
unmarshalled messages together with the cached summary (empty when the
summary key is absent). -/
theorem getHistory_beyond_window (now maxHistory : Nat) (st : SessionStore)
    (h : maxHistory < ((rawEntries now st).filterMap id).length / 2) :
    getHistory now maxHistory st =
      some (((rawEntries now st).filterMap id).drop
              (((rawEntries now st).filterMap id).length - maxHistory * 2),
            (liveCell st.summary now).getD "") := by
  have hb : 2 * maxHistory + 2 ≤ ((rawEntries now st).filterMap id).length := by omega
  simp only [getHistory, goSliceFrom]
  rw [if_neg (by omega), if_pos (by constructor <;> omega)]
  have htn : (((((rawEntries now st).filterMap id).length : Nat) : Int)
      - ((maxHistory * 2 : Nat) : Int)).toNat
      = ((rawEntries now st).filterMap id).length - maxHistory * 2 := by omega
  rw [htn]
  cases liveCell st.summary now <;> rfl

/-- C2: Window invariant — for every session whose log contains `N`
complete appended rounds with `N > W`, `GetHistory` returns exactly the
`W` most recent rounds, i.e. the last `2*W` messages, never more and never
fewer. -/
theorem getHistory_window_invariant (now maxHistory N : Nat) (ms : List Message)
    (st : SessionStore) (hmsg : st.messages = ms.map some)
    (hexp : st.messagesExpiry = none) (hlen : ms.length = 2 * N)
    (hN : maxHistory < N) :
    (getHistory now maxHistory st).map Prod.fst
        = some (ms.drop (ms.length - maxHistory * 2))
      ∧ (ms.drop (ms.length - maxHistory * 2)).length = maxHistory * 2 := by
  have hall : (rawEntries now st).filterMap id = ms := by
    simp [rawEntries, hexp, keyLive, hmsg, filterMap_id_map_some]
  have h : maxHistory < ((rawEntries now st).filterMap id).length / 2 := by
    rw [hall]; omega
  rw [getHistory_beyond_window now maxHistory st h, hall]
  refine ⟨rfl, ?_⟩
  simp only [List.length_drop]
  omega

/-- C2 witness: with `W = 1` and two complete rounds, the read returns
exactly the last two messages. -/
theorem getHistory_window_invariant_witness :
    (getHistory 0 1
        { messages := ([⟨"user", "u1", 1⟩, ⟨"assistant", "a1", 1⟩,
            ⟨"user", "u2", 2⟩, ⟨"assistant", "a2", 2⟩] : List Message).map some,
          messagesExpiry := none, summary := none, lastAccess := none }).map Prod.fst
      = some [⟨"user", "u2", 2⟩, ⟨"assistant", "a2", 2⟩]
    ∧ (([⟨"user", "u1", 1⟩, ⟨"assistant", "a1", 1⟩, ⟨"user", "u2", 2⟩,
        ⟨"assistant", "a2", 2⟩] : List Message).drop 2).length = 1 * 2 := by
  have h := getHistory_window_invariant 0 1 2
    ([⟨"user", "u1", 1⟩, ⟨"assistant", "a1", 1⟩,
      ⟨"user", "u2", 2⟩, ⟨"assistant", "a2", 2⟩] : List Message)
    { messages := ([⟨"user", "u1", 1⟩, ⟨"assistant", "a1", 1⟩,
        ⟨"user", "u2", 2⟩, ⟨"assistant", "a2", 2⟩] : List Message).map some,
      messagesExpiry := none, summary := none, lastAccess := none }
    rfl rfl rfl (by decide)
  simpa using h

/-- C3: No-summary gap — with `totalRounds > W` and no cached summary, the
read succeeds (no failure) and returns the most recent `W` rounds together
with an empty summary; `getHistory` takes no generation port, so it cannot
itself invoke summarization (that is the caller's job). -/
theorem getHistory_no_summary_gap (now maxHistory : Nat) (ms : List Message)
    (st : SessionStore) (hmsg : st.messages = ms.map some)
    (hexp : st.messagesExpiry = none) (hsum : st.summary = none)
    (hW : maxHistory < ms.length / 2) :
    getHistory now maxHistory st
      = some (ms.drop (ms.length - maxHistory * 2), "") := by
  have hall : (rawEntries now st).filterMap id = ms := by
    simp [rawEntries, hexp, keyLive, hmsg, filterMap_id_map_some]
  have h : maxHistory < ((rawEntries now st).filterMap id).length / 2 := by
    rw [hall]; exact hW
  rw [getHistory_beyond_window now maxHistory st h, hall, hsum]
  rfl

/-- C3 witness: three rounds with `W = 1` and no summary yield the last
round and the empty summary. -/
theorem getHistory_no_summary_gap_witness :
    getHistory 0 1
        { messages := ([⟨"user", "u1", 1⟩, ⟨"assistant", "a1", 1⟩,
            ⟨"user", "u2", 2⟩, ⟨"assistant", "a2", 2⟩,
            ⟨"user", "u3", 3⟩, ⟨"assistant", "a3", 3⟩] : List Message).map some,
          messagesExpiry := none, summary := none, lastAccess := none }
      = some ([⟨"user", "u3", 3⟩, ⟨"assistant", "a3", 3⟩], "") := by
  have h := getHistory_no_summary_gap 0 1
    ([⟨"user", "u1", 1⟩, ⟨"assistant", "a1", 1⟩, ⟨"user", "u2", 2⟩,
      ⟨"assistant", "a2", 2⟩, ⟨"user", "u3", 3⟩, ⟨"assistant", "a3", 3⟩] : List Message)
    { messages := ([⟨"user", "u1", 1⟩, ⟨"assistant", "a1", 1⟩, ⟨"user", "u2", 2⟩,
        ⟨"assistant", "a2", 2⟩, ⟨"user", "u3", 3⟩, ⟨"assistant", "a3", 3⟩] : List Message).map some,
      messagesExpiry := none, summary := none, lastAccess := none }
    rfl rfl rfl (by decide)
  simpa using h

/-- C5: Odd-length tolerance — a log with an odd number of well-formed
entries (an interrupted turn) never makes the read fail: the result is
always `some`, the Go slice start `len - 2*W` is non-negative whenever the
slice branch runs, and the dangling last message of the log is the last
returned message.  (Holds for any positive window; the program configures
`W = 10`.) -/
theorem getHistory_odd_length_tolerance (now maxHistory : Nat) (ms : List Message)
    (st : SessionStore) (hmsg : st.messages = ms.map some)
    (hexp : st.messagesExpiry = none) (hodd : ms.length % 2 = 1)
    (hW : 0 < maxHistory) :
    (getHistory now maxHistory st).map (fun pr => pr.1.getLast?) = some ms.getLast?
    ∧ (maxHistory < ms.length / 2 → maxHistory * 2 ≤ ms.length) := by
  have hall : (rawEntries now st).filterMap id = ms := by
    simp [rawEntries, hexp, keyLive, hmsg, filterMap_id_map_some]
  refine ⟨?_, by omega⟩
  by_cases h : ms.length / 2 ≤ maxHistory
  · rw [getHistory_within_window now maxHistory st (by rw [hall]; exact h), hall]
    rfl
  · have h2 : maxHistory < ((rawEntries now st).filterMap id).length / 2 := by
      rw [hall]; omega
    rw [getHistory_beyond_window now maxHistory st h2, hall]
    simp only [Option.map_some']
    congr 1
    exact getLast?_drop_of_lt ms (ms.length - maxHistory * 2) (by omega)

/-- C5 witness: five entries with `W = 1` — the read returns the last two
messages and the dangling fifth message is the last of them. -/
theorem getHistory_odd_length_tolerance_witness :
    (getHistory 0 1
        { messages := ([⟨"user", "u1", 1⟩, ⟨"assistant", "a1", 1⟩,
            ⟨"user", "u2", 2⟩, ⟨"assistant", "a2", 2⟩,
            ⟨"user", "u3", 3⟩] : List Message).map some,
          messagesExpiry := none, summary := none, lastAccess := none }).map
        (fun pr => pr.1.getLast?)
      = some (some ⟨"user", "u3", 3⟩) := by
  have h := getHistory_odd_length_tolerance 0 1
    ([⟨"user", "u1", 1⟩, ⟨"assistant", "a1", 1⟩, ⟨"user", "u2", 2⟩,
      ⟨"assistant", "a2", 2⟩, ⟨"user", "u3", 3⟩] : List Message)
    { messages := ([⟨"user", "u1", 1⟩, ⟨"assistant", "a1", 1⟩, ⟨"user", "u2", 2⟩,
        ⟨"assistant", "a2", 2⟩, ⟨"user", "u3", 3⟩] : List Message).map some,
      messagesExpiry := none, summary := none, lastAccess := none }
    rfl rfl rfl (by decide)
  simpa using h.1

/-- C4: Clear idempotence — `ClearHistory` deletes the message log, the
summary and the access-time telemetry in a single `DEL` (one atomic state
transition here), the resulting state equals the state of a session that
never existed, and a context read immediately after returns the empty
message sequence and the empty summary without failing. -/
theorem clearHistory_resets_session :
    ∀ (st : SessionStore) (now maxHistory : Nat),
      clearHistory st = initSession
      ∧ getHistory now maxHistory (clearHistory st) = some ([], "")
      ∧ getLastAccessTime now (clearHistory st) = 0 := by
  intro st now maxHistory
  refine ⟨rfl, ?_, rfl⟩
  have h : ((rawEntries now (clearHistory st)).filterMap id).length / 2 ≤ maxHistory := by
    simp [rawEntries, clearHistory, keyLive]
  rw [getHistory_within_window now maxHistory (clearHistory st) h]
  simp [rawEntries, clearHistory, keyLive]

/-- C9: Implicit — entries of the backing list that fail to deserialize
are silently skipped: the read never fails and returns exactly what it
returns on the log restricted to its well-formed entries, so the history
and the round count derived from it cover only those. -/
theorem getHistory_drops_malformed_entries :
    ∀ (now maxHistory : Nat) (st : SessionStore),
      getHistory now maxHistory st
        = getHistory now maxHistory
            { st with messages := (st.messages.filterMap id).map some }
      ∧ (getHistory now maxHistory st).isSome = true := by
  intro now maxHistory st
  refine ⟨?_, getHistory_isSome now maxHistory st⟩
  have h : (rawEntries now { st with messages := (st.messages.filterMap id).map some }).filterMap id
      = (rawEntries now st).filterMap id := by
    cases hk : keyLive st.messagesExpiry now <;>
      simp [rawEntries, hk, filterMap_id_map_some]
  simp only [getHistory, h]

/-- A turn leaves the cached summary exactly as it was: the summarization
step of the loop is a no-op (see `maybeSummarize_eq_self`) and the message
writes do not touch the summary key. -/
theorem runTurn_state_summary (maxHistory : Nat) (p : Ports) (sessionID query : String)
    (now : Nat) (st : SessionStore) :
    ((runTurn maxHistory p sessionID query now st).1).summary = st.summary := by
  unfold runTurn
  cases hg : getHistory now maxHistory st with
  | none => rfl
  | some pr =>
    cases hc : p.chat (shortTermText pr.1 pr.2) (longTermText p.retrieve query) query with
    | error e => simp only [hc]
    | ok response =>
      simp only [hc, maybeSummarize_eq_self, addMessage_summary]

/-- Ports for the concrete scenario: empty retrieval, a chat model that
always answers, a summarizer that always returns a non-empty summary, and
an indexer that always returns one id. -/
def demoPorts : Ports :=
  { retrieve := fun _ => Except.ok []
    chat := fun _ _ _ => Except.ok "助手回复"
    summarize := fun _ => Except.ok "非空总结"
    index := fun _ => Except.ok ["id-1"] }

/-- C1: Summarization trigger — refuted on the code.  The orchestrator
recomputes `totalRounds` from the value `GetHistory` already truncated to
the window, so the trigger `totalRounds > maxHistory` never fires and no
turn ever writes a summary (first conjunct); in particular, with `W = 2`
and five rounds appended to a fresh session with a summarizer that always
produces a non-empty summary, the reads after the 3rd and after the 5th
round both return an empty summary, where the claim requires a non-empty
one. -/
theorem runTurn_never_writes_summary :
    (∀ (maxHistory : Nat) (p : Ports) (sessionID query : String) (now : Nat)
        (st : SessionStore),
        ((runTurn maxHistory p sessionID query now st).1).summary = st.summary)
    ∧ (getHistory 4 2 (runTurns 2 demoPorts "demo_session_001"
          [("q1", 1), ("q2", 2), ("q3", 3)] initSession)).map Prod.snd = some ""
    ∧ (getHistory 6 2 (runTurns 2 demoPorts "demo_session_001"
          [("q1", 1), ("q2", 2), ("q3", 3), ("q4", 4), ("q5", 5)] initSession)).map
        Prod.snd = some "" := by
  exact ⟨fun maxHistory p sid query now st => runTurn_state_summary maxHistory p sid query now st,
    by decide, by decide⟩

/-- A retriever that fails contributes an empty long-term context. -/
theorem longTermText_error (e query : String) :
    longTermText (fun _ => Except.error e) query = "" := by
  unfold longTermText ltmRetrieve
  split <;> rfl

/-- A retriever that finds nothing contributes an empty long-term
context. -/
theorem longTermText_nil (query : String) :
    longTermText (fun _ => Except.ok []) query = "" := by
  unfold longTermText ltmRetrieve
  split <;> rfl

/-- C6: Conditional long-term write — in a turn whose generation succeeds,
a long-term `Store` happens exactly when the query contains the persist
keyword "请记住"; the stored content is the query with the cue prefix
"请记住：" stripped, and the metadata carries the session id, the kind
`"user_fact"` and the turn timestamp. -/
theorem runTurn_conditional_long_term_write (maxHistory : Nat) (p : Ports)
    (sessionID query : String) (now : Nat) (st : SessionStore)
    (hchat : ∀ a b c, ∃ r, p.chat a b c = Except.ok r) :
    (runTurn maxHistory p sessionID query now st).2.stored
      = (if strContains query "请记住" then
           some (strTrimPfx query "请记住：",
                 { sessionId := sessionID, kind := "user_fact", timestamp := now },
                 (ltmStore p.index (strTrimPfx query "请记住：")
                    { sessionId := sessionID, kind := "user_fact", timestamp := now }).1,
                 (ltmStore p.index (strTrimPfx query "请记住：")
                    { sessionId := sessionID, kind := "user_fact", timestamp := now }).2)
         else none) := by
  have hs := getHistory_isSome now maxHistory st
  cases hg : getHistory now maxHistory st with
  | none => rw [hg] at hs; simp at hs
  | some pr =>
    obtain ⟨r, hr⟩ := hchat (shortTermText pr.1 pr.2) (longTermText p.retrieve query) query
    unfold runTurn
    rw [hg]
    simp only [hr]

/-- C6 witness: a concrete turn whose query starts with the cue stores the
stripped fact with the session id, kind and timestamp, and gets back the
indexer's id. -/
theorem runTurn_conditional_long_term_write_witness :
    (runTurn 10
        ⟨fun _ => Except.ok [], fun _ _ _ => Except.ok "好的",
         fun _ => Except.ok "s", fun _ => Except.ok ["id-9"]⟩
        "demo_session_001" "请记住：我的工作年限是 5 年" 7 initSession).2.stored
      = some ("我的工作年限是 5 年",
              { sessionId := "demo_session_001", kind := "user_fact", timestamp := 7 },
              "id-9", none) := by
  have h := runTurn_conditional_long_term_write 10
    ⟨fun _ => Except.ok [], fun _ _ _ => Except.ok "好的",
     fun _ => Except.ok "s", fun _ => Except.ok ["id-9"]⟩
    "demo_session_001" "请记住：我的工作年限是 5 年" 7 initSession
    (fun a b c => ⟨"好的", rfl⟩)
  rw [h]
  decide

/-- C7: Long-term read degradation — a turn whose `Retrieve` always fails
is indistinguishable from the same turn with an empty retrieval result
(the error is swallowed inside the turn and never propagated), and when
the generation port succeeds, the turn still produces a response. -/
theorem runTurn_retrieve_error_degrades (maxHistory : Nat) (p : Ports) (e : String)
    (sessionID query : String) (now : Nat) (st : SessionStore) :
    runTurn maxHistory { p with retrieve := fun _ => Except.error e }
        sessionID query now st
      = runTurn maxHistory { p with retrieve := fun _ => Except.ok [] }
        sessionID query now st
    ∧ ((∀ a b c, ∃ r, p.chat a b c = Except.ok r) →
        ((runTurn maxHistory { p with retrieve := fun _ => Except.error e }
            sessionID query now st).2.response).isSome = true) := by
  have heq : runTurn maxHistory { p with retrieve := fun _ => Except.error e }
        sessionID query now st
      = runTurn maxHistory { p with retrieve := fun _ => Except.ok [] }
        sessionID query now st := by
    unfold runTurn
    simp only [longTermText_error, longTermText_nil]
  refine ⟨heq, fun hchat => ?_⟩
  rw [heq]
  have hs := getHistory_isSome now maxHistory st
  cases hg : getHistory now maxHistory st with
  | none => rw [hg] at hs; simp at hs
  | some pr =>
    obtain ⟨r, hr⟩ := hchat (shortTermText pr.1 pr.2)
      (longTermText (fun _ => Except.ok []) query) query
    unfold runTurn
    rw [hg]
    simp only [hr, Option.isSome_some]

/-- C7 witness: a turn on a query that triggers retrieval, with a failing
Elasticsearch retriever, equals the turn with an empty retrieval, and
still answers. -/
theorem runTurn_retrieve_error_degrades_witness :
    runTurn 10
        ⟨fun _ => Except.error "es down", fun _ _ _ => Except.ok "答复",
         fun _ => Except.ok "s", fun _ => Except.ok ["i"]⟩
        "s1" "我的名字是什么？" 3 initSession
      = runTurn 10
        ⟨fun _ => Except.ok [], fun _ _ _ => Except.ok "答复",
         fun _ => Except.ok "s", fun _ => Except.ok ["i"]⟩
        "s1" "我的名字是什么？" 3 initSession
    ∧ ((runTurn 10
        ⟨fun _ => Except.error "es down", fun _ _ _ => Except.ok "答复",
         fun _ => Except.ok "s", fun _ => Except.ok ["i"]⟩
        "s1" "我的名字是什么？" 3 initSession).2.response).isSome = true := by
  have h := runTurn_retrieve_error_degrades 10
    ⟨fun _ => Except.ok [], fun _ _ _ => Except.ok "答复",
     fun _ => Except.ok "s", fun _ => Except.ok ["i"]⟩
    "es down" "s1" "我的名字是什么？" 3 initSession
  exact ⟨h.1, h.2 (fun a b c => ⟨"答复", rfl⟩)⟩

/-- C8 counterexample: with an indexer that answers with one empty-string
id, `Store` succeeds (`err = nil`) and returns the empty identifier, so
the claimed dichotomy — success with a non-empty id, or an error together
with an empty id — is false at this input. -/
theorem ltmStore_nonempty_id_counterexample :
    ¬ (((ltmStore (fun _ => Except.ok [""]) "x"
            { sessionId := "s", kind := "user_fact", timestamp := 0 }).2.isSome = true
          ∧ (ltmStore (fun _ => Except.ok [""]) "x"
            { sessionId := "s", kind := "user_fact", timestamp := 0 }).1 = "")
        ∨ ((ltmStore (fun _ => Except.ok [""]) "x"
            { sessionId := "s", kind := "user_fact", timestamp := 0 }).2 = none
          ∧ (ltmStore (fun _ => Except.ok [""]) "x"
            { sessionId := "s", kind := "user_fact", timestamp := 0 }).1 ≠ "")) := by
  decide

/-- C8 (amended): `Store` fails — returning an empty identifier together
with an error — exactly when the indexer errors (embedding or index write
failure) or returns zero ids; otherwise it succeeds and returns the first
identifier the indexer generated, so a non-empty id is returned whenever
the indexer generates one, and an error is never accompanied by a
non-empty id. -/
theorem ltmStore_result_shape (index : List LTDoc → Except String (List String))
    (content : String) (metadata : MemoryMetadata) :
    (∀ e, index [{ content := content, metadata := metadata }] = Except.error e →
        ltmStore index content metadata = ("", some ("存储长期记忆失败: " ++ e)))
    ∧ (index [{ content := content, metadata := metadata }] = Except.ok [] →
        ltmStore index content metadata = ("", some "存储失败：未返回 ID"))
    ∧ (∀ id0 rest,
        index [{ content := content, metadata := metadata }] = Except.ok (id0 :: rest) →
        ltmStore index content metadata = (id0, none))
    ∧ ((ltmStore index content metadata).2.isSome = true →
        (ltmStore index content metadata).1 = "") := by
  refine ⟨fun e he => ?_, fun he => ?_, fun id0 rest he => ?_, ?_⟩
  · unfold ltmStore
    rw [he]
  · unfold ltmStore
    rw [he]
  · unfold ltmStore
    rw [he]
  · unfold ltmStore
    cases hx : index [{ content := content, metadata := metadata }] with
    | error e => intro _; rfl
    | ok ids =>
      cases ids with
      | nil => intro _; rfl
      | cons id0 rest => intro habs; simp at habs

/-- C8 witness: a failing indexer makes `Store` return the empty id with
the wrapped error. -/
theorem ltmStore_result_shape_witness :
    ltmStore (fun _ => Except.error "boom") "x"
        { sessionId := "s", kind := "user_fact", timestamp := 0 }
      = ("", some ("存储长期记忆失败: " ++ "boom")) :=
  (ltmStore_result_shape (fun _ => Except.error "boom") "x"
    { sessionId := "s", kind := "user_fact", timestamp := 0 }).1 "boom" rfl

/-- The write operations `ShortTermMemory` exposes on a session. -/
inductive StmOp where
  | add (now : Nat) (role content : String)
  | save (text : String)
  | touch (now : Nat)
  | clear
deriving DecidableEq

/-- Apply one store operation. -/
def applyOp : StmOp → SessionStore → SessionStore
  | .add now role content, st => addMessage now role content st
  | .save text, st => saveSummary text st
  | .touch now, st => updateLastAccessTime now st
  | .clear, st => clearHistory st

/-- Apply a sequence of store operations, oldest first. -/
def applyOps : List StmOp → SessionStore → SessionStore
  | [], st => st
  | op :: rest, st => applyOps rest (applyOp op st)

/-- The TTL discipline of the code: the message-list key and the summary
key carry no expiry; the last-access key, when present, expires exactly
30 days after it was written. -/
def NoTTLInv (st : SessionStore) : Prop :=
  st.messagesExpiry = none
  ∧ (∀ c, st.summary = some c → c.expiresAt = none)
  ∧ (∀ c, st.lastAccess = some c → c.expiresAt = some (c.val + 2592000))

/-- Every store operation preserves the TTL discipline. -/
theorem applyOp_inv (op : StmOp) (st : SessionStore) (h : NoTTLInv st) :
    NoTTLInv (applyOp op st) := by
  obtain ⟨h1, h2, h3⟩ := h
  cases op with
  | add now role content =>
    refine ⟨?_, fun c hc => ?_, fun c hc => ?_⟩
    · simp [applyOp, addMessage, keyLive, h1]
    · apply h2
      simpa [applyOp, addMessage, keyLive, h1] using hc
    · apply h3
      simpa [applyOp, addMessage, keyLive, h1] using hc
  | save text =>
    refine ⟨h1, ?_, h3⟩
    intro c hc
    simp only [applyOp, saveSummary] at hc
    cases hc
    rfl
  | touch now =>
    refine ⟨h1, h2, ?_⟩
    intro c hc
    simp only [applyOp, updateLastAccessTime] at hc
    cases hc
    rfl
  | clear =>
    exact ⟨rfl, fun c hc => by simp [applyOp, clearHistory] at hc,
           fun c hc => by simp [applyOp, clearHistory] at hc⟩

/-- A whole history of store operations preserves the TTL discipline. -/
theorem applyOps_inv (ops : List StmOp) (st : SessionStore) (h : NoTTLInv st) :
    NoTTLInv (applyOps ops st) := by
  induction ops generalizing st with
  | nil => exact h
  | cons op rest ih => exact ih (applyOp op st) (applyOp_inv op st h)

/-- On a store obeying the TTL discipline, `GetHistory` does not depend on
the reading time: messages and summary never expire. -/
theorem getHistory_time_free (now now2 maxHistory : Nat) (st : SessionStore)
    (hm : st.messagesExpiry = none)
    (hs : ∀ c, st.summary = some c → c.expiresAt = none) :
    getHistory now maxHistory st = getHistory now2 maxHistory st := by
  have h1 : rawEntries now st = rawEntries now2 st := by
    simp [rawEntries, hm, keyLive]
  have h2 : liveCell st.summary now = liveCell st.summary now2 := by
    cases hc : st.summary with
    | none => rfl
    | some c =>
      have := hs c hc
      simp [liveCell, this]
  simp only [getHistory, h1, h2]

/-- C10: Implicit — no self-expiry of session data.  Starting from a fresh
session, any sequence of store operations leaves the message-list key and
the summary without a TTL (AddMessage pushes with none, SaveSummary sets
expiration 0), so `GetHistory` is independent of the reading time and the
session content only changes through the operations themselves (in
particular `clear`); only the advisory last-access key carries an expiry,
always 30 days past its write, after which `GetLastAccessTime` reports 0
while messages and summary persist. -/
theorem shortTermMemory_no_self_expiry (ops : List StmOp) :
    (applyOps ops initSession).messagesExpiry = none
    ∧ (∀ c, (applyOps ops initSession).summary = some c → c.expiresAt = none)
    ∧ (∀ c, (applyOps ops initSession).lastAccess = some c →
          c.expiresAt = some (c.val + 2592000))
    ∧ (∀ now now2 maxHistory, getHistory now maxHistory (applyOps ops initSession)
          = getHistory now2 maxHistory (applyOps ops initSession))
    ∧ (∀ now c, (applyOps ops initSession).lastAccess = some c →
          c.val + 2592000 ≤ now →
          getLastAccessTime now (applyOps ops initSession) = 0) := by
  have hinv : NoTTLInv (applyOps ops initSession) :=
    applyOps_inv ops initSession ⟨rfl, fun c hc => by simp [initSession] at hc,
      fun c hc => by simp [initSession] at hc⟩
  obtain ⟨h1, h2, h3⟩ := hinv
  refine ⟨h1, h2, h3, fun now now2 maxHistory => getHistory_time_free now now2 maxHistory _ h1 h2,
    fun now c hc hle => ?_⟩
  have hexp := h3 c hc
  have hnone : liveCell (applyOps ops initSession).lastAccess now = none := by
    rw [hc]
    simp only [liveCell, hexp]
    rw [if_neg (by omega : ¬ now < c.val + 2592000)]
  simp [getLastAccessTime, hnone]

/-- C10 witness: after two messages, a summary and a touch at time 100,
reading 30 days later reports last-access 0 while the history read is the
same as at time 0. -/
theorem shortTermMemory_no_self_expiry_witness :
    getLastAccessTime 2592100
        (applyOps [StmOp.add 10 "user" "你好", StmOp.add 10 "assistant" "回复",
          StmOp.save "总结", StmOp.touch 100] initSession) = 0
    ∧ getHistory 2592100 10
        (applyOps [StmOp.add 10 "user" "你好", StmOp.add 10 "assistant" "回复",
          StmOp.save "总结", StmOp.touch 100] initSession)
      = getHistory 0 10
        (applyOps [StmOp.add 10 "user" "你好", StmOp.add 10 "assistant" "回复",
          StmOp.save "总结", StmOp.touch 100] initSession) := by
  have h := shortTermMemory_no_self_expiry
    [StmOp.add 10 "user" "你好", StmOp.add 10 "assistant" "回复",
     StmOp.save "总结", StmOp.touch 100]
  exact ⟨h.2.2.2.2 2592100 ⟨100, some 2592100⟩ (by decide) (by decide),
    h.2.2.2.1 2592100 0 10⟩
